import Mathlib

/-!
Verification of the SocialChat realtime client core.

The definitions below are shallow embeddings of the TypeScript source:
the WebSocket hook (presence tracker, typing registry, connection
manager with reconnect backoff, outbound send operations) and the
video-call modal signaling handler. Theorems check the specified
properties against these embeddings.
-/

/-! ## Conversation identifiers

The source derives a conversation id as
`[user.id, selectedFriend.id].sort().join(underscore)`
with the DEFAULT JavaScript comparator, which compares the decimal
string representations of the two numbers lexicographically by code
unit. For a two-element array the sorted result is `[b, a]` exactly
when `String(b) < String(a)`, and `[a, b]` otherwise.
-/

/-- Lexicographic code-unit comparison of two JavaScript strings,
modelled on lists of characters. -/
def jsStrLt : List Char → List Char → Bool
  | [], [] => false
  | [], _ :: _ => true
  | _ :: _, [] => false
  | a :: as, b :: bs =>
    if a < b then true
    else if b < a then false
    else jsStrLt as bs

/-- Decimal string representation of a number, as JavaScript
`String(n)` produces for a non-negative integer. -/
def jsNumToString (n : Nat) : List Char :=
  (toString n).data

/-- JavaScript default-sort of the two-element array `[a, b]`:
elements are converted to strings and compared lexicographically. -/
def jsSortPair (a b : Nat) : List Char × List Char :=
  if jsStrLt (jsNumToString b) (jsNumToString a) then
    (jsNumToString b, jsNumToString a)
  else (jsNumToString a, jsNumToString b)

/-- Embedding of the conversation id computation
`[user.id, friend.id].sort().join` with underscore, from the
FriendChat and RealTimeChat components. -/
def conversationId (a b : Nat) : String :=
  ⟨(jsSortPair a b).1 ++ ['_'] ++ (jsSortPair a b).2⟩

example : conversationId 3 7 = "3_7" := by decide
example : conversationId 3 17 = "17_3" := by decide

/-- The lexicographic order on strings is asymmetric. -/
theorem jsStrLt_asymm :
    ∀ {x y : List Char}, jsStrLt x y = true → jsStrLt y x = false
  | [], [], h => by simp [jsStrLt] at h
  | [], _ :: _, _ => by simp [jsStrLt]
  | _ :: _, [], h => by simp [jsStrLt] at h
  | a :: as, b :: bs, h => by
    rcases lt_trichotomy a b with hab | hab | hab
    · simp [jsStrLt, hab, not_lt_of_gt hab]
    · subst hab
      simp only [jsStrLt, lt_irrefl, if_false] at h ⊢
      exact jsStrLt_asymm h
    · simp [jsStrLt, hab, not_lt_of_gt hab] at h

/-- Two strings that are each not lexicographically below the other
are equal. -/
theorem jsStrLt_antisymm :
    ∀ {x y : List Char}, jsStrLt x y = false → jsStrLt y x = false → x = y
  | [], [], _, _ => rfl
  | [], _ :: _, h, _ => by simp [jsStrLt] at h
  | _ :: _, [], _, h => by simp [jsStrLt] at h
  | a :: as, b :: bs, h₁, h₂ => by
    rcases lt_trichotomy a b with hab | hab | hab
    · simp [jsStrLt, hab] at h₁
    · subst hab
      simp only [jsStrLt, lt_irrefl, if_false] at h₁ h₂
      exact congrArg (a :: ·) (jsStrLt_antisymm h₁ h₂)
    · simp [jsStrLt, hab, not_lt_of_gt hab] at h₂

/-- Claim C7: the conversation id is symmetric in its two arguments,
so both peers derive the same id regardless of argument order. -/
theorem c7_conversationId_comm (a b : Nat) :
    conversationId a b = conversationId b a := by
  unfold conversationId jsSortPair
  rcases hba : jsStrLt (jsNumToString b) (jsNumToString a) with _ | _
  · rcases hab : jsStrLt (jsNumToString a) (jsNumToString b) with _ | _
    · have h := jsStrLt_antisymm hab hba
      simp [h]
    · simp
  · have h := jsStrLt_asymm hba
    simp [h]

/-- Claim C6 counterexample: for ids 3 and 17 the conversation id
produced by the code is "17_3", not the "3_17" the claim states,
because the default JavaScript sort is lexicographic on strings. -/
theorem c6_counterexample :
    conversationId 3 17 = "17_3" ∧ conversationId 3 17 ≠ "3_17" := by
  constructor
  · decide
  · decide

/-- Claim C6 (amended): the conversation id is the two decimal string
representations of the participant ids joined with an underscore, in
ascending lexicographic (string) order, not ascending numeric order. -/
theorem c6_conversationId_sorted_join (a b : Nat) :
    ∃ x y : List Char,
      conversationId a b = ⟨x ++ ['_'] ++ y⟩ ∧
      jsStrLt y x = false ∧
      (x = jsNumToString a ∧ y = jsNumToString b ∨
        x = jsNumToString b ∧ y = jsNumToString a) := by
  unfold conversationId jsSortPair
  rcases hba : jsStrLt (jsNumToString b) (jsNumToString a) with _ | _
  · exact ⟨jsNumToString a, jsNumToString b, by simp, hba, Or.inl ⟨rfl, rfl⟩⟩
  · exact ⟨jsNumToString b, jsNumToString a, by simp,
      jsStrLt_asymm hba, Or.inr ⟨rfl, rfl⟩⟩

/-! ## JavaScript collection primitives

The hook keeps its presence, status and typing state in `Set` and
`Map` objects. Both preserve insertion order, so they are modelled as
lists (of elements, respectively of key-value pairs with unique keys).
-/

/-- JavaScript `Set.add`: appends the element unless already present. -/
def jsSetAdd (s : List Nat) (x : Nat) : List Nat :=
  if x ∈ s then s else s ++ [x]

/-- JavaScript `Set.delete`: removes the element. -/
def jsSetDelete (s : List Nat) (x : Nat) : List Nat :=
  s.filter (fun y => y != x)

/-- JavaScript `new Set(array)`: deduplicates, keeping the first
occurrence of each element. -/
def jsSetOf (l : List Nat) : List Nat :=
  l.foldl jsSetAdd []

/-- JavaScript `Map.get`. -/
def jsMapGet {K V : Type} [DecidableEq K] : List (K × V) → K → Option V
  | [], _ => none
  | (k', v) :: rest, k => if k' = k then some v else jsMapGet rest k

/-- JavaScript `Map.set`: overwrites the value in place for an
existing key, appends a new entry otherwise. -/
def jsMapSet {K V : Type} [DecidableEq K] : List (K × V) → K → V → List (K × V)
  | [], k, v => [(k, v)]
  | (k', v') :: rest, k, v =>
    if k' = k then (k, v) :: rest else (k', v') :: jsMapSet rest k v

/-- JavaScript `Map.delete`. -/
def jsMapDelete {K V : Type} [DecidableEq K] (m : List (K × V)) (k : K) :
    List (K × V) :=
  m.filter (fun p => p.1 != k)

/-! ## The WebSocket hook state

State of `useWebSocket`: the online-user set, the per-conversation
typing sets, and the per-user status map, exactly the three pieces of
tracked state that `handleMessage` updates.
-/

/-- Tracked state of the `useWebSocket` hook. -/
structure HookState where
  onlineUsers : List Nat
  typingUsers : List (String × List Nat)
  userStatuses : List (Nat × String)
deriving DecidableEq

/-- Inbound envelopes the hook handles, by `type` and payload. -/
inductive InMsg
  | user_list (userIds : List Nat)
  | online (userId : Nat)
  | offline (userId : Nat)
  | user_status (userId : Nat) (status : String)
  | typing (conversationId : String) (userId : Nat) (isTyping : Bool)
  | message_read
  | new_message
  | message_sent
  | new_notification
deriving DecidableEq

/-- Embedding of `handleMessage` from the hook: the effect of one
inbound envelope on the tracked state. The `message_read`,
`new_message`, `message_sent` and `new_notification` cases only
forward to registered feature handlers and leave the tracked state
alone, as does the default (unknown type) case. -/
def handleMessage (s : HookState) : InMsg → HookState
  | .user_list ids => { s with onlineUsers := jsSetOf ids }
  | .online u => { s with onlineUsers := jsSetAdd s.onlineUsers u }
  | .offline u =>
    { s with onlineUsers := jsSetDelete s.onlineUsers u,
             userStatuses := jsMapSet s.userStatuses u "offline" }
  | .user_status u st =>
    { s with userStatuses := jsMapSet s.userStatuses u st }
  | .typing c u t =>
    let m0 := s.typingUsers
    let m1 := if (jsMapGet m0 c).isSome then m0 else jsMapSet m0 c []
    let set0 := (jsMapGet m1 c).getD []
    let set1 := if t then jsSetAdd set0 u else jsSetDelete set0 u
    let m2 := if set1.length = 0 then jsMapDelete m1 c else jsMapSet m1 c set1
    { s with typingUsers := m2 }
  | _ => s

/-- Embedding of `isUserTyping`. -/
def isUserTyping (s : HookState) (c : String) (u : Nat) : Bool :=
  match jsMapGet s.typingUsers c with
  | some set => set.contains u
  | none => false

/-- Embedding of `getTypingUsers`. -/
def getTypingUsers (s : HookState) (c : String) : List Nat :=
  (jsMapGet s.typingUsers c).getD []

/-- Embedding of `isUserOnline`. -/
def isUserOnline (s : HookState) (u : Nat) : Bool :=
  s.onlineUsers.contains u

/-- Embedding of `getUserStatus`, with its explicit default. -/
def getUserStatus (s : HookState) (u : Nat) : String :=
  (jsMapGet s.userStatuses u).getD "offline"

/-! ## Outbound operations of the hook -/

/-- Socket readiness, as JavaScript `WebSocket.readyState`. -/
inductive ReadyState
  | connecting
  | opened
  | closing
  | closed
deriving DecidableEq

/-- Outbound envelopes the hook can transmit. -/
inductive OutMsg
  | join (userId : Nat)
  | message (receiverId : Nat) (content : String) (imageUrl : Option String)
  | typing (conversationId : String) (isTyping : Bool)
  | mark_read (messageId : Nat) (conversationId : String)
  | status_update (status : String)
  | join_conversation (conversationId : String)
  | leave_conversation (conversationId : String)
deriving DecidableEq

/-- The error `sendMessage` throws when the socket is unavailable. -/
inductive SendError
  | notConnected
deriving DecidableEq

/-- Embedding of `sendMessage`: throws when there is no socket or the
socket is not open, otherwise transmits the chat envelope. The socket
argument is `wsRef.current` together with its ready state. -/
def sendMessage (ws : Option ReadyState) (receiverId : Nat) (content : String)
    (imageUrl : Option String) : Except SendError OutMsg :=
  match ws with
  | none => .error .notConnected
  | some rs =>
    if rs = .opened then .ok (.message receiverId content imageUrl)
    else .error .notConnected

/-- Embedding of `sendTypingIndicator`: silently returns when the
socket is unavailable; never touches the tracked state. -/
def sendTypingIndicator (s : HookState) (ws : Option ReadyState)
    (c : String) (t : Bool) : HookState × List OutMsg :=
  match ws with
  | some rs => if rs = .opened then (s, [.typing c t]) else (s, [])
  | none => (s, [])

/-- Embedding of `sendReadReceipt`. -/
def sendReadReceipt (s : HookState) (ws : Option ReadyState)
    (messageId : Nat) (c : String) : HookState × List OutMsg :=
  match ws with
  | some rs => if rs = .opened then (s, [.mark_read messageId c]) else (s, [])
  | none => (s, [])

/-- Embedding of `sendStatusUpdate`. -/
def sendStatusUpdate (s : HookState) (ws : Option ReadyState)
    (status : String) : HookState × List OutMsg :=
  match ws with
  | some rs => if rs = .opened then (s, [.status_update status]) else (s, [])
  | none => (s, [])

/-- Embedding of `joinConversation`. -/
def joinConversation (s : HookState) (ws : Option ReadyState)
    (c : String) : HookState × List OutMsg :=
  match ws with
  | some rs => if rs = .opened then (s, [.join_conversation c]) else (s, [])
  | none => (s, [])

/-- Embedding of `leaveConversation`. -/
def leaveConversation (s : HookState) (ws : Option ReadyState)
    (c : String) : HookState × List OutMsg :=
  match ws with
  | some rs => if rs = .opened then (s, [.leave_conversation c]) else (s, [])
  | none => (s, [])

/-! ## Lemmas about the collection primitives -/

theorem jsMapGet_set_self {K V : Type} [DecidableEq K]
    (m : List (K × V)) (k : K) (v : V) :
    jsMapGet (jsMapSet m k v) k = some v := by
  induction m with
  | nil => simp [jsMapGet, jsMapSet]
  | cons p rest ih =>
    by_cases h : p.1 = k
    · simp [jsMapSet, jsMapGet, h]
    · simpa [jsMapSet, jsMapGet, h] using ih

theorem jsMapSet_get_self {K V : Type} [DecidableEq K]
    {m : List (K × V)} {k : K} {v : V} (h : jsMapGet m k = some v) :
    jsMapSet m k v = m := by
  induction m with
  | nil => simp [jsMapGet] at h
  | cons p rest ih =>
    obtain ⟨k', v'⟩ := p
    by_cases hk : k' = k
    · simp [jsMapGet, hk] at h
      simp [jsMapSet, hk, h]
    · simp [jsMapGet, hk] at h
      simp [jsMapSet, hk, ih h]

theorem jsMapSet_jsMapSet {K V : Type} [DecidableEq K]
    (m : List (K × V)) (k : K) (v w : V) :
    jsMapSet (jsMapSet m k v) k w = jsMapSet m k w := by
  induction m with
  | nil => simp [jsMapSet]
  | cons p rest ih =>
    by_cases h : p.1 = k
    · simp [jsMapSet, h]
    · simp [jsMapSet, h, ih]

theorem jsMapDelete_jsMapSet {K V : Type} [DecidableEq K]
    (m : List (K × V)) (k : K) (v : V) :
    jsMapDelete (jsMapSet m k v) k = jsMapDelete m k := by
  induction m with
  | nil => simp [jsMapSet, jsMapDelete]
  | cons p rest ih =>
    obtain ⟨k', v'⟩ := p
    by_cases h : k' = k
    · simp [jsMapSet, jsMapDelete, List.filter_cons, h]
    · simpa [jsMapSet, jsMapDelete, List.filter_cons, h] using ih

theorem jsMapGet_delete_self {K V : Type} [DecidableEq K]
    (m : List (K × V)) (k : K) :
    jsMapGet (jsMapDelete m k) k = none := by
  induction m with
  | nil => simp [jsMapDelete, jsMapGet]
  | cons p rest ih =>
    obtain ⟨k', v'⟩ := p
    by_cases h : k' = k
    · simpa [jsMapDelete, List.filter_cons, h] using ih
    · simpa [jsMapDelete, List.filter_cons, jsMapGet, h] using ih

theorem mem_jsMapSet {K V : Type} [DecidableEq K]
    {m : List (K × V)} {k : K} {v : V} {p : K × V}
    (h : p ∈ jsMapSet m k v) : p ∈ m ∨ p = (k, v) := by
  induction m with
  | nil => simpa [jsMapSet] using h
  | cons q rest ih =>
    by_cases hq : q.1 = k
    · simp [jsMapSet, hq] at h
      rcases h with h | h
      · exact Or.inr h
      · exact Or.inl (List.mem_cons_of_mem _ h)
    · simp [jsMapSet, hq] at h
      rcases h with h | h
      · exact Or.inl (by simp [h])
      · rcases ih h with h | h
        · exact Or.inl (List.mem_cons_of_mem _ h)
        · exact Or.inr h

theorem mem_jsMapDelete {K V : Type} [DecidableEq K]
    {m : List (K × V)} {k : K} {p : K × V}
    (h : p ∈ jsMapDelete m k) : p ∈ m :=
  List.mem_of_mem_filter h

theorem jsSetDelete_contains (s : List Nat) (x : Nat) :
    (jsSetDelete s x).contains x = false := by
  induction s with
  | nil => simp [jsSetDelete]
  | cons y rest ih =>
    by_cases h : y = x
    · simp [jsSetDelete, List.filter_cons, h] at ih ⊢
    · simp [jsSetDelete, List.filter_cons, h, Ne.symm h] at ih ⊢

theorem jsSetAdd_of_mem {s : List Nat} {x : Nat} (h : x ∈ s) :
    jsSetAdd s x = s := by
  simp [jsSetAdd, h]

theorem not_mem_jsSetDelete (s : List Nat) (x : Nat) :
    x ∉ jsSetDelete s x := by
  simp [jsSetDelete, List.mem_filter]

theorem mem_jsSetAdd_self (s : List Nat) (x : Nat) :
    x ∈ jsSetAdd s x := by
  by_cases h : x ∈ s <;> simp [jsSetAdd, h]

/-- Normal form of the typing case of `handleMessage`: the transient
empty entry the code inserts for a previously unknown conversation is
always overwritten or deleted again within the same event. -/
theorem handleMessage_typing_eq (s : HookState) (c : String) (u : Nat) (t : Bool) :
    handleMessage s (.typing c u t) =
      { s with typingUsers :=
          let set0 := (jsMapGet s.typingUsers c).getD []
          let set1 := if t then jsSetAdd set0 u else jsSetDelete set0 u
          if set1.length = 0 then jsMapDelete s.typingUsers c
          else jsMapSet s.typingUsers c set1 } := by
  rcases hget : jsMapGet s.typingUsers c with _ | set
  · simp only [handleMessage, hget, Option.isSome_none, Bool.false_eq_true,
      if_false, jsMapGet_set_self, Option.getD_some, Option.getD_none,
      jsMapDelete_jsMapSet, jsMapSet_jsMapSet]
  · simp only [handleMessage, hget, Option.isSome_some, if_true, Option.getD_some]

/-! ## Claims about the hook -/

/-- Claim C4: sending a chat message succeeds exactly when the socket
exists and is open; in every other connection state it fails
synchronously with the not-connected error, transmitting nothing. -/
theorem c4_sendMessage_connected_only (ws : Option ReadyState) (r : Nat)
    (content : String) (img : Option String) :
    (ws = some .opened →
      sendMessage ws r content img = .ok (.message r content img)) ∧
    (ws ≠ some .opened →
      sendMessage ws r content img = .error .notConnected) := by
  constructor
  · intro h
    subst h
    simp [sendMessage]
  · intro h
    match ws with
    | none => rfl
    | some rs =>
      have hrs : rs ≠ ReadyState.opened := fun hr => h (by rw [hr])
      simp [sendMessage, hrs]

/-- Witness for C4 at a concrete open and a concrete absent socket. -/
theorem c4_witness :
    sendMessage (some .opened) 7 "hi" none = .ok (.message 7 "hi" none) ∧
    sendMessage none 7 "hi" none = .error .notConnected :=
  ⟨(c4_sendMessage_connected_only (some .opened) 7 "hi" none).1 rfl,
   (c4_sendMessage_connected_only none 7 "hi" none).2 (by simp)⟩

/-- Claim C8: after an offline event for a user, that user is reported
not online and with status offline, whatever the prior state; and a
user with no recorded status is reported offline. -/
theorem c8_offline_event :
    (∀ (s : HookState) (u : Nat),
      isUserOnline (handleMessage s (.offline u)) u = false ∧
      getUserStatus (handleMessage s (.offline u)) u = "offline") ∧
    (∀ (t : HookState) (v : Nat),
      jsMapGet t.userStatuses v = none → getUserStatus t v = "offline") := by
  refine ⟨fun s u => ⟨?_, ?_⟩, fun t v hv => ?_⟩
  · simp [handleMessage, isUserOnline, not_mem_jsSetDelete]
  · simp [handleMessage, getUserStatus, jsMapGet_set_self]
  · simp [getUserStatus, hv]

/-- Witness for C8 at a concrete state where the user was online and
away, and a concrete state with no recorded status. -/
theorem c8_witness :
    (isUserOnline (handleMessage ⟨[4], [], [(4, "away")]⟩ (.offline 4)) 4 = false ∧
      getUserStatus (handleMessage ⟨[4], [], [(4, "away")]⟩ (.offline 4)) 4 =
        "offline") ∧
    getUserStatus ⟨[], [], []⟩ 9 = "offline" :=
  ⟨c8_offline_event.1 ⟨[4], [], [(4, "away")]⟩ 4,
   c8_offline_event.2 ⟨[], [], []⟩ 9 rfl⟩

/-- No conversation entry of the typing registry maps to an empty set. -/
def NoEmptyTyping (s : HookState) : Prop :=
  ∀ p ∈ s.typingUsers, p.2 ≠ []

instance (s : HookState) : Decidable (NoEmptyTyping s) :=
  List.decidableBAll _ _

/-- Claim C9: a typing-start event adds the user to the conversation
set, and does so idempotently (a typing-start for a user already in
the set changes nothing); a typing-stop event removes the user; and
every event preserves the invariant that no conversation entry holds
an empty set, the entry being deleted when its last typer leaves. -/
theorem c9_typing_registry :
    (∀ (s : HookState) (c : String) (u : Nat),
      isUserTyping (handleMessage s (.typing c u true)) c u = true) ∧
    (∀ (s : HookState) (c : String) (u : Nat),
      isUserTyping s c u = true → handleMessage s (.typing c u true) = s) ∧
    (∀ (s : HookState) (c : String) (u : Nat),
      isUserTyping (handleMessage s (.typing c u false)) c u = false) ∧
    (∀ (s : HookState) (m : InMsg),
      NoEmptyTyping s → NoEmptyTyping (handleMessage s m)) := by
  refine ⟨fun s c u => ?_, fun s c u h => ?_, fun s c u => ?_, fun s m h => ?_⟩
  · rw [handleMessage_typing_eq]
    have hmem : u ∈ jsSetAdd ((jsMapGet s.typingUsers c).getD []) u :=
      mem_jsSetAdd_self _ u
    have hne : (jsSetAdd ((jsMapGet s.typingUsers c).getD []) u).length ≠ 0 := by
      intro h0
      rw [List.length_eq_zero] at h0
      rw [h0] at hmem
      simp at hmem
    simp only [if_true, hne, if_false]
    simp [isUserTyping, jsMapGet_set_self, hmem]
  · rcases hget : jsMapGet s.typingUsers c with _ | set
    · simp [isUserTyping, hget] at h
    · simp only [isUserTyping, hget] at h
      have hmem : u ∈ set := by simpa using h
      have hne : set.length ≠ 0 := by
        intro hlen
        rw [List.length_eq_zero] at hlen
        subst hlen
        simp at hmem
      rw [handleMessage_typing_eq]
      simp only [hget, Option.getD_some, if_true, jsSetAdd_of_mem hmem, hne,
        if_false]
      rw [jsMapSet_get_self hget]
  · rw [handleMessage_typing_eq]
    rcases hget : jsMapGet s.typingUsers c with _ | set
    · simp [isUserTyping, hget, jsSetDelete, jsMapGet_delete_self]
    · simp only [hget, Option.getD_some, Bool.false_eq_true, if_false]
      by_cases hlen : (jsSetDelete set u).length = 0
      · simp [isUserTyping, hlen, jsMapGet_delete_self]
      · simp [isUserTyping, hlen, jsMapGet_set_self, not_mem_jsSetDelete]
  · match m with
    | .user_list ids => exact h
    | .online u => exact h
    | .offline u => exact h
    | .user_status u st => exact h
    | .message_read => exact h
    | .new_message => exact h
    | .message_sent => exact h
    | .new_notification => exact h
    | .typing c u t =>
      rw [handleMessage_typing_eq]
      intro p hp
      simp only at hp
      by_cases hlen :
          (if t then jsSetAdd ((jsMapGet s.typingUsers c).getD []) u
            else jsSetDelete ((jsMapGet s.typingUsers c).getD []) u).length = 0
      · rw [if_pos hlen] at hp
        exact h p (mem_jsMapDelete hp)
      · rw [if_neg hlen] at hp
        rcases mem_jsMapSet hp with hpm | hpe
        · exact h p hpm
        · subst hpe
          intro hnil
          apply hlen
          have h2 :
              (if t then jsSetAdd ((jsMapGet s.typingUsers c).getD []) u
                else jsSetDelete ((jsMapGet s.typingUsers c).getD []) u) = [] :=
            hnil
          simp [h2]

/-- Witness for C9: a typing-start for user 5, absent from an empty
registry, makes the user typing in conversation "3_7"; a state where
user 5 is already typing absorbs a repeated typing-start, drops the
user on typing-stop, and the no-empty-entry invariant is preserved. -/
theorem c9_witness :
    isUserTyping (handleMessage ⟨[], [], []⟩ (.typing "3_7" 5 true)) "3_7" 5 =
        true ∧
    handleMessage ⟨[], [("3_7", [5])], []⟩ (.typing "3_7" 5 true) =
        ⟨[], [("3_7", [5])], []⟩ ∧
    isUserTyping (handleMessage ⟨[], [("3_7", [5])], []⟩ (.typing "3_7" 5 false))
        "3_7" 5 = false ∧
    NoEmptyTyping (handleMessage ⟨[], [("3_7", [5])], []⟩ (.typing "3_7" 5 false)) :=
  ⟨c9_typing_registry.1 ⟨[], [], []⟩ "3_7" 5,
   c9_typing_registry.2.1 ⟨[], [("3_7", [5])], []⟩ "3_7" 5 (by decide),
   c9_typing_registry.2.2.1 ⟨[], [("3_7", [5])], []⟩ "3_7" 5,
   c9_typing_registry.2.2.2 ⟨[], [("3_7", [5])], []⟩ (.typing "3_7" 5 false)
     (by decide)⟩

/-- Claim C10: when the socket is absent or not open, each guarded
outbound operation returns silently, transmits nothing and leaves the
tracked state unchanged, while `sendMessage` is the one outbound
operation that raises. -/
theorem c10_guarded_sends_silent_noop (s : HookState) (ws : Option ReadyState)
    (c : String) (t : Bool) (mid r : Nat) (content st : String)
    (h : ws ≠ some .opened) :
    sendTypingIndicator s ws c t = (s, []) ∧
    sendReadReceipt s ws mid c = (s, []) ∧
    sendStatusUpdate s ws st = (s, []) ∧
    joinConversation s ws c = (s, []) ∧
    leaveConversation s ws c = (s, []) ∧
    sendMessage ws r content none = .error .notConnected := by
  match ws with
  | none =>
    exact ⟨rfl, rfl, rfl, rfl, rfl, rfl⟩
  | some rs =>
    have hrs : rs ≠ ReadyState.opened := fun hr => h (by rw [hr])
    refine ⟨?_, ?_, ?_, ?_, ?_, ?_⟩ <;>
      simp [sendTypingIndicator, sendReadReceipt, sendStatusUpdate,
        joinConversation, leaveConversation, sendMessage, hrs]

/-- Witness for C10 with a closing socket. -/
theorem c10_witness :
    sendTypingIndicator ⟨[1], [], []⟩ (some .closing) "1_2" true =
        (⟨[1], [], []⟩, []) ∧
    sendReadReceipt ⟨[1], [], []⟩ (some .closing) 9 "1_2" = (⟨[1], [], []⟩, []) ∧
    sendStatusUpdate ⟨[1], [], []⟩ (some .closing) "away" = (⟨[1], [], []⟩, []) ∧
    joinConversation ⟨[1], [], []⟩ (some .closing) "1_2" = (⟨[1], [], []⟩, []) ∧
    leaveConversation ⟨[1], [], []⟩ (some .closing) "1_2" = (⟨[1], [], []⟩, []) ∧
    sendMessage (some .closing) 2 "hello" none = .error .notConnected :=
  c10_guarded_sends_silent_noop ⟨[1], [], []⟩ (some .closing) "1_2" true 9 2
    "hello" "away" (by simp)

/-! ## Connection manager: reconnect backoff

From `connect` in the hook: `ws.onopen` resets the attempt counter to
zero (and sends the join envelope); `ws.onclose` schedules a reconnect
with delay `min(1000 * 2 ** attempts, 10000)` if fewer than
`maxReconnectAttempts` attempts have been made, and otherwise gives
up; the reconnect timer increments the counter and reconnects.
-/

/-- The `maxReconnectAttempts` constant of the hook. -/
def maxReconnectAttempts : Nat := 5

/-- Connection-manager state: the `isConnected` flag and the
`reconnectAttempts` counter. -/
structure ConnState where
  isConnected : Bool
  reconnectAttempts : Nat
deriving DecidableEq

/-- Transport lifecycle events seen by the hook. -/
inductive ConnEvent
  | wsOpened
  | wsClosed
  | reconnectTimerFired
deriving DecidableEq

/-- Embedding of the `onopen`, `onclose` and reconnect-timer bodies.
The second component is the delay of a newly scheduled reconnect
timer, if the event scheduled one. -/
def connStep (s : ConnState) : ConnEvent → ConnState × Option Nat
  | .wsOpened => (⟨true, 0⟩, none)
  | .wsClosed =>
    if s.reconnectAttempts < maxReconnectAttempts then
      (⟨false, s.reconnectAttempts⟩,
        some (min (1000 * 2 ^ s.reconnectAttempts) 10000))
    else (⟨false, s.reconnectAttempts⟩, none)
  | .reconnectTimerFired => (⟨s.isConnected, s.reconnectAttempts + 1⟩, none)

/-- Runs a sequence of lifecycle events, collecting every scheduled
reconnect delay in order. -/
def connRun (s : ConnState) : List ConnEvent → ConnState × List Nat
  | [] => (s, [])
  | e :: es =>
    let r1 := connStep s e
    let r2 := connRun r1.1 es
    (r2.1, r1.2.toList ++ r2.2)

/-- A sequence of `n` failed reconnect rounds: each closure is
followed by the reconnect timer firing. -/
def failCycles : Nat → List ConnEvent
  | 0 => []
  | n + 1 => ConnEvent.wsClosed :: ConnEvent.reconnectTimerFired :: failCycles n

theorem connRun_failCycles (n : Nat) :
    ∀ (k : Nat) (b : Bool), k + n ≤ maxReconnectAttempts →
      (connRun ⟨b, k⟩ (failCycles n)).2 =
          (List.range n).map (fun i => min (1000 * 2 ^ (k + i)) 10000) ∧
      (connRun ⟨b, k⟩ (failCycles n)).1.reconnectAttempts = k + n := by
  induction n with
  | zero => intro k b _; simp [failCycles, connRun]
  | succ n ih =>
    intro k b h
    have hk : k < maxReconnectAttempts := by omega
    have hrec := ih (k + 1) false (by omega)
    constructor
    · simp only [failCycles, connRun, connStep, hk, if_true, Option.toList_some,
        hrec.1, List.range_succ_eq_map, List.map_cons, List.map_map,
        Option.toList_none, List.nil_append, List.singleton_append]
      congr 1
      refine List.map_congr_left fun a _ => ?_
      have he : k + 1 + a = k + (a + 1) := by omega
      simp [Function.comp, he, Nat.succ_eq_add_one]
    · simp only [failCycles, connRun, connStep, hk, if_true]
      have := hrec.2
      simp only [this]
      omega

/-- Claim C3: starting from a freshly opened connection, the delay
scheduled before the Nth reconnect attempt is
`min(1000 * 2 ** N, 10000)` for every reconnect sequence of up to
five failures; a successful open resets the attempt counter to zero
from any state; and once five attempts have failed, a further closure
schedules no reconnect at all. -/
theorem c3_reconnect_backoff :
    (∀ n : Nat, n ≤ 5 →
      (connRun ⟨true, 0⟩ (failCycles n)).2 =
        (List.range n).map (fun i => min (1000 * 2 ^ i) 10000)) ∧
    (∀ s : ConnState, (connStep s .wsOpened).1.reconnectAttempts = 0) ∧
    (∀ s : ConnState, 5 ≤ s.reconnectAttempts →
      (connStep s .wsClosed).2 = none) ∧
    (connRun ⟨true, 0⟩ (failCycles 5 ++ [ConnEvent.wsClosed])).2 =
      (List.range 5).map (fun i => min (1000 * 2 ^ i) 10000) := by
  refine ⟨fun n hn => ?_, fun s => rfl, fun s hs => ?_, ?_⟩
  · simpa using (connRun_failCycles n 0 true (by simpa [maxReconnectAttempts])).1
  · have : ¬ s.reconnectAttempts < maxReconnectAttempts := by
      simp [maxReconnectAttempts]; omega
    simp [connStep, this]
  · decide

/-- Witness for C3: three failed rounds yield delays 1000, 2000, 4000,
and a closure at counter five schedules nothing. -/
theorem c3_witness :
    (connRun ⟨true, 0⟩ (failCycles 3)).2 = [1000, 2000, 4000] ∧
    (connStep ⟨false, 5⟩ .wsClosed).2 = none := by
  constructor
  · have h := c3_reconnect_backoff.1 3 (by decide)
    simpa using h
  · exact c3_reconnect_backoff.2.2.1 ⟨false, 5⟩ (by decide)

/-! ## Video-call modal signaling

Embedding of the `ws.onmessage` handler installed by
`initializeWebRTC` in the video-call modal, together with
`createPeerConnection` (outgoing role) and `handleIncomingCall`
(incoming role). The peer connection records its remote description
and the candidates passed to `addIceCandidate`, in order. The handler
has NO queue for candidates: the `ice_candidate` case applies the
candidate if a peer connection object exists and otherwise drops it.
-/

/-- An `RTCPeerConnection`, reduced to the negotiation data the
claims are about. -/
structure PeerConn where
  remoteDescription : Option String
  appliedCandidates : List String
deriving DecidableEq

/-- A freshly constructed `RTCPeerConnection`. -/
def newPeerConnection : PeerConn := ⟨none, []⟩

/-- `addIceCandidate`: applies a candidate to the connection. -/
def addIceCandidate (pc : PeerConn) (cand : String) : PeerConn :=
  { pc with appliedCandidates := pc.appliedCandidates ++ [cand] }

/-- `setRemoteDescription`. -/
def setRemoteDescription (pc : PeerConn) (sdp : String) : PeerConn :=
  { pc with remoteDescription := some sdp }

/-- The `callType` prop of the modal. -/
inductive CallType
  | incoming
  | outgoing
  | active
deriving DecidableEq

/-- State of the modal relevant to signaling: the peer connection,
the call id, whether the signaling socket is up, and the role. -/
structure CallModalState where
  peerConnection : Option PeerConn
  callId : Option String
  wsConnected : Bool
  callType : CallType
deriving DecidableEq

/-- Envelopes the modal sends over the signaling socket. -/
inductive CallOutMsg
  | create_video_call (callId : String)
  | offer (callId : Option String)
  | answer (callId : Option String)
  | ice_candidate (callId : Option String) (candidate : String)
  | reject_call (callId : String)
  | end_call (callId : String)
deriving DecidableEq

/-- Inbound signaling envelopes dispatched by `ws.onmessage`. -/
inductive CallInMsg
  | call_accepted
  | call_rejected
  | call_ended
  | ice_candidate (candidate : String)
  | offer (sdp : String)
  | answer (sdp : String)
deriving DecidableEq

/-- Embedding of the `ws.onmessage` switch of the modal. Case by case:
`call_accepted` runs `createPeerConnection` (fresh connection, then an
offer envelope is sent when the socket is up); `call_rejected` and
`call_ended` close the modal and release the session; `ice_candidate`
calls `addIceCandidate` when a peer connection exists and otherwise
does nothing; `offer` runs `handleIncomingCall` when the role is
incoming (fresh connection whose remote description is the received
offer, then an answer envelope); `answer` applies the remote
description when a peer connection exists. -/
def onSignal (s : CallModalState) : CallInMsg → CallModalState × List CallOutMsg
  | .call_accepted =>
    ({ s with peerConnection := some newPeerConnection },
      if s.wsConnected then [.offer s.callId] else [])
  | .call_rejected =>
    ({ s with peerConnection := none, wsConnected := false }, [])
  | .call_ended =>
    ({ s with peerConnection := none, wsConnected := false }, [])
  | .ice_candidate cand =>
    match s.peerConnection with
    | some pc => ({ s with peerConnection := some (addIceCandidate pc cand) }, [])
    | none => (s, [])
  | .offer sdp =>
    if s.callType = .incoming then
      ({ s with peerConnection := some ⟨some sdp, []⟩ },
        if s.wsConnected then [.answer s.callId] else [])
    else (s, [])
  | .answer sdp =>
    match s.peerConnection with
    | some pc =>
      ({ s with peerConnection := some (setRemoteDescription pc sdp) }, [])
    | none => (s, [])

/-- Claim C1 evaluated at its failing input: an ICE candidate that
arrives before the remote description (here, before the session even
exists) is dropped on the floor — the state is unchanged, nothing is
queued anywhere, and after the session is created and the remote
description applied, the set of applied candidates is still empty.
The claimed `pendingRemoteCandidates` queue does not exist in the
handler. -/
theorem c1_candidate_dropped_before_remote_description :
    (onSignal ⟨none, some "call_1", true, .outgoing⟩
        (.ice_candidate "cand_0")).1 =
      ⟨none, some "call_1", true, .outgoing⟩ ∧
    (onSignal ⟨none, some "call_1", true, .outgoing⟩
        (.ice_candidate "cand_0")).2 = [] ∧
    (onSignal
        (onSignal
          (onSignal ⟨none, some "call_1", true, .outgoing⟩
            (.ice_candidate "cand_0")).1
          .call_accepted).1
        (.answer "sdp_a")).1.peerConnection =
      some ⟨some "sdp_a", []⟩ := by
  refine ⟨by decide, by decide, by decide⟩

/-- Claim C2 evaluated at its failing input: with a call session
already active (a peer connection with an applied remote description
and a flushed candidate), a second incoming offer is not rejected as
busy — the handler silently replaces the active session with a fresh
peer connection for the new offer and answers it. -/
theorem c2_second_offer_overwrites_session :
    (onSignal ⟨some ⟨some "sdp_1", ["cand_1"]⟩, some "call_1", true, .incoming⟩
        (.offer "sdp_2")).1.peerConnection = some ⟨some "sdp_2", []⟩ ∧
    (onSignal ⟨some ⟨some "sdp_1", ["cand_1"]⟩, some "call_1", true, .incoming⟩
        (.offer "sdp_2")).2 = [CallOutMsg.answer (some "call_1")] := by
  refine ⟨by decide, by decide⟩

/-! ## Call setup and media acquisition

Embedding of `initializeMedia` for an outgoing call: acquire the
camera and microphone; on success hand the stream to
`initializeWebRTC`, which opens the signaling socket and, once open,
generates a call id and sends the `create_video_call` envelope; on
failure show the error toast and close the modal without opening a
socket or sending anything.
-/

/-- Result of `navigator.mediaDevices.getUserMedia`. -/
inductive MediaResult
  | granted (streamId : String)
  | denied
deriving DecidableEq

/-- Outcome of `initializeMedia` for an outgoing call. -/
structure CallSetup where
  localStream : Option String
  callId : Option String
  sent : List CallOutMsg
  modalClosed : Bool
deriving DecidableEq

/-- Embedding of `initializeMedia` followed by `initializeWebRTC`:
only the success branch reaches the socket-open callback that sends
`create_video_call`; the catch branch closes the modal with no call
id and no envelopes sent. -/
def initializeMedia (media : MediaResult) (newCallId : String) : CallSetup :=
  match media with
  | .granted streamId =>
    { localStream := some streamId, callId := some newCallId,
      sent := [.create_video_call newCallId], modalClosed := false }
  | .denied =>
    { localStream := none, callId := none, sent := [], modalClosed := true }

/-- Claim C5: a `create_video_call` envelope is sent only when a
local media stream was obtained, and on media failure call setup
aborts with nothing sent and no call session created. -/
theorem c5_media_failure_aborts_before_signaling
    (media : MediaResult) (cid c : String) :
    (CallOutMsg.create_video_call c ∈ (initializeMedia media cid).sent →
      ∃ streamId, (initializeMedia media cid).localStream = some streamId) ∧
    (media = .denied →
      (initializeMedia media cid).sent = [] ∧
      (initializeMedia media cid).callId = none ∧
      (initializeMedia media cid).modalClosed = true) := by
  constructor
  · intro hmem
    match media with
    | .granted streamId => exact ⟨streamId, rfl⟩
    | .denied => simp [initializeMedia] at hmem
  · intro h
    subst h
    exact ⟨rfl, rfl, rfl⟩

/-- Witness for C5: granted media sends the envelope with a stream
present; denied media sends nothing. -/
theorem c5_witness :
    (∃ streamId,
      (initializeMedia (.granted "stream_7") "call_9").localStream =
        some streamId) ∧
    (initializeMedia .denied "call_9").sent = [] ∧
    (initializeMedia .denied "call_9").callId = none ∧
    (initializeMedia .denied "call_9").modalClosed = true :=
  ⟨(c5_media_failure_aborts_before_signaling (.granted "stream_7") "call_9"
      "call_9").1 (by simp [initializeMedia]),
   (c5_media_failure_aborts_before_signaling .denied "call_9" "call_9").2 rfl⟩
